import Mathlib

/-!
Shallow embedding of the pangea-client provider/validation core
(`src/rust/src/core/client.rs`, `src/rust/src/providers/http.rs`,
`src/rust/src/core/requests/mira.rs`) together with the parts of the
repository the spec describes but whose sources are not under `src/`
(`ChainId`, `Format`, `Bound`, `check_chain`, the comma-separated
serialization helpers); those are marked `Modelled from the spec:`.

Streams are modelled as finite lists of fallible chunks; the network is an
explicit function from the outbound HTTP call to a response, and every HTTP
method returns the list of calls it issued together with its result, so that
"exactly one call" and "no network activity" are statable.
-/

namespace Pangea

/-- Modelled from the spec: `ChainId` (core/types, not under `src/`) is an
enumeration of supported networks, partitioned into disjoint families
(EVM-compatible, UTXO, resource-VM, alt-VM).  `BTC` and `FUEL` appear
literally in the sources under `src/`. -/
inductive ChainId where
  | ETH
  | BTC
  | FUEL
  | MOVEMENT
deriving DecidableEq

/-- Modelled from the spec: `Format` (core/types/format.rs, not under
`src/`) is the content-format negotiation token; `Format::JsonStream`
appears literally in `client.rs`. -/
inductive Format where
  | Json
  | JsonStream
  | Arrow
deriving DecidableEq

/-- Modelled from the spec: the serde token the `format` query parameter
carries for each `Format` variant. -/
def Format.token : Format → String
  | .Json => "json"
  | .JsonStream => "json_stream"
  | .Arrow => "arrow"

/-- Modelled from the spec: the client error type (core/error.rs, not under
`src/`): validation errors, fatal construction failures, transport errors
and decode errors. -/
inductive Error where
  | validation (msg : String)
  | fatal (msg : String)
  | transport (msg : String)
  | decode (msg : String)
deriving DecidableEq

/-- A byte chunk of a response stream (bytes as naturals). -/
abbrev Chunk := List Nat

/-- A stream of fallible byte chunks: the pure-data shadow of
`StreamResponse<Vec<u8>>` (each element may be a transport error). -/
abbrev ByteStream := List (Except Error Chunk)

/-- Modelled from the spec: `Bound` (query.rs, not under `src/`), an
optional inclusive block-height boundary; absent means unbounded. -/
inductive Bound where
  | unbounded
  | exact (n : Nat)
deriving DecidableEq

/-- Modelled from the spec: the supported chain set of the Fuel
(resource-VM) resource family. -/
def fuelSupportedChains : Finset ChainId := {ChainId.FUEL}

/-- Modelled from the spec: the supported chain set of the Move (alt-VM)
resource family. -/
def moveSupportedChains : Finset ChainId := {ChainId.MOVEMENT}

/-- Modelled from the spec: `Client::check_chain` (not under `src/`): the
request's `chains` set must be non-empty and every member must belong to
the resource family's supported chain set; violation is a validation
error. -/
def check_chain (supported chains : Finset ChainId) : Except Error Unit :=
  if chains = ∅ then
    .error (.validation "chains must not be empty")
  else if chains ⊆ supported then
    .ok ()
  else
    .error (.validation "chain not supported for this resource family")

/-- Modelled from the spec: `fuel::GetFuelBlocksRequest` (request shape not
under `src/`): a chain filter plus an inclusive block range. -/
structure GetFuelBlocksRequest where
  chains : Finset ChainId
  from_block : Bound
  to_block : Bound
deriving DecidableEq

/-- Modelled from the spec: `movement::GetMoveLogsRequest` (request shape
not under `src/`): a chain filter plus an inclusive block range. -/
structure GetMoveLogsRequest where
  chains : Finset ChainId
  from_block : Bound
  to_block : Bound
deriving DecidableEq

/-- `Client::get_fuel_blocks_by_format` (client.rs lines 264-275): run
`check_chain` on the request's chains against the Fuel family's supported
set, then forward request, format and deltas to the inner backend.  The
inner backend is the explicit argument `inner`. -/
def Client.get_fuel_blocks_by_format
    (inner : GetFuelBlocksRequest → Format → Bool → Except Error ByteStream)
    (request : GetFuelBlocksRequest) (format : Format) (deltas : Bool) :
    Except Error ByteStream := do
  let _ ← check_chain fuelSupportedChains request.chains
  inner request format deltas

/-- `Client::get_move_logs_by_format` (client.rs lines 452-463): run
`check_chain` on the request's chains against the Move family's supported
set, then forward request, format and deltas to the inner backend. -/
def Client.get_move_logs_by_format
    (inner : GetMoveLogsRequest → Format → Bool → Except Error ByteStream)
    (request : GetMoveLogsRequest) (format : Format) (deltas : Bool) :
    Except Error ByteStream := do
  let _ ← check_chain moveSupportedChains request.chains
  inner request format deltas

/-! ## Comma-joined serialization convention

Modelled from the spec: `utils::serialize_comma_separated` and the matching
comma-splitting deserialization (utils, not under `src/`): a multi-valued
filter set renders as a deterministic comma-joined token list, and an empty
set is omitted rather than serialized as an empty token. -/

/-- Join a list of tokens with `,` separators (no trailing separator). -/
def joinComma : List (List Char) → List Char
  | [] => []
  | [t] => t
  | t :: ts => t ++ ',' :: joinComma ts

/-- Split a character list at every `,` (inverse direction of the
comma-joined convention). -/
def splitComma : List Char → List (List Char)
  | [] => [[]]
  | c :: cs =>
    match splitComma cs with
    | [] => [[c]]
    | t :: ts => if c = ',' then [] :: t :: ts else (c :: t) :: ts

/-- Hex digit character for a value below 16 (`0` for out-of-range). -/
def hexChar : Nat → Char
  | 0 => '0' | 1 => '1' | 2 => '2' | 3 => '3'
  | 4 => '4' | 5 => '5' | 6 => '6' | 7 => '7'
  | 8 => '8' | 9 => '9' | 10 => 'a' | 11 => 'b'
  | 12 => 'c' | 13 => 'd' | 14 => 'e' | _ + 15 => 'f'

/-- Numeric value of a hex digit character (`0` for non-hex). -/
def hexVal (c : Char) : Nat :=
  match c with
  | '0' => 0 | '1' => 1 | '2' => 2 | '3' => 3
  | '4' => 4 | '5' => 5 | '6' => 6 | '7' => 7
  | '8' => 8 | '9' => 9 | 'a' => 10 | 'b' => 11
  | 'c' => 12 | 'd' => 13 | 'e' => 14 | 'f' => 15
  | _ => 0

/-- An `H256` value (a 256-bit hash, modelled as a natural). -/
abbrev H256 := Nat

/-- Modelled from the spec: the token a single `H256` renders to in a
comma-joined filter list — its hex digits, most significant first. -/
def h256Token (n : H256) : List Char :=
  if n = 0 then ['0'] else ((Nat.digits 16 n).map hexChar).reverse

/-- Parse one token of a comma-joined `H256` list back to its value. -/
def parseH256Token (cs : List Char) : H256 :=
  Nat.ofDigits 16 ((cs.map hexVal).reverse)

/-- Modelled from the spec: serialize a set of `H256` values as a
deterministic comma-joined token list (ascending order). -/
def encodeH256Set (s : Finset H256) : List Char :=
  joinComma ((s.sort (· ≤ ·)).map h256Token)

/-- Decode a comma-joined token list back into the set of `H256` values. -/
def decodeH256Set (cs : List Char) : Finset H256 :=
  ((splitComma cs).map parseH256Token).toFinset

/-- Modelled from the spec: the serde token of each `ChainId` variant. -/
def ChainId.token : ChainId → String
  | .ETH => "ETH"
  | .BTC => "BTC"
  | .FUEL => "FUEL"
  | .MOVEMENT => "MOVEMENT"

/-- The fixed enumeration of all chain identifiers, used to render a chain
set deterministically. -/
def allChains : List ChainId := [.ETH, .BTC, .FUEL, .MOVEMENT]

/-- Modelled from the spec: serialize a chain set as a deterministic
comma-joined token list. -/
def encodeChainSet (s : Finset ChainId) : String :=
  String.mk (joinComma ((allChains.filter (· ∈ s)).map (fun c => c.token.data)))

/-- Modelled from the spec: the query parameters contributed by one
optional block bound — omitted when unbounded. -/
def boundParam (key : String) (b : Bound) : List (String × String) :=
  match b with
  | .unbounded => []
  | .exact n => [(key, Nat.repr n)]

/-! ## HTTP transport (`src/rust/src/providers/http.rs`) -/

/-- Base64 character for a 6-bit group, by the standard alphabet ranges
(`A-Z`, `a-z`, `0-9`, `+`, `/`); total in its argument. -/
def b64Code (n : Nat) : Nat :=
  if n < 26 then 65 + n
  else if n < 52 then 97 + (n - 26)
  else if n < 62 then 48 + (n - 52)
  else if n = 62 then 43
  else 47

/-- The byte codes of the standard (padded) base64 encoding of a byte
list, three input bytes to four output codes, with `=` padding (code 61)
appended for a final partial group. -/
def base64Codes : List Nat → List Nat
  | b1 :: b2 :: b3 :: rest =>
    b64Code (b1 / 4) :: b64Code (b1 % 4 * 16 + b2 / 16) ::
      b64Code (b2 % 16 * 4 + b3 / 64) :: b64Code (b3 % 64) :: base64Codes rest
  | [b1, b2] => [b64Code (b1 / 4), b64Code (b1 % 4 * 16 + b2 / 16), b64Code (b2 % 16 * 4), 61]
  | [b1] => [b64Code (b1 / 4), b64Code (b1 % 4 * 16), 61, 61]
  | [] => []

/-- The bytes of a string (char codes; faithful for the ASCII credentials
the construction path handles). -/
def strBytes (s : String) : List Nat := s.data.map Char.toNat

/-- `BASE64.encode` of a string's bytes, as a string. -/
def base64Encode (bs : List Nat) : String :=
  String.mk ((base64Codes bs).map Char.ofNat)

/-- `header::HeaderValue::from_str` succeeds exactly on visible
characters: every char code in the printable band 32..126. -/
def isValidHeaderValue (s : String) : Prop :=
  ∀ c ∈ s.data, 32 ≤ c.toNat ∧ c.toNat ≤ 126

instance (s : String) : Decidable (isValidHeaderValue s) := by
  unfold isValidHeaderValue; infer_instance

/-- The Basic authentication header value computed at construction:
`"Basic "` followed by base64 of `"username:password"`. -/
def basicHeaderValue (username password : String) : String :=
  "Basic " ++ base64Encode (strBytes (username ++ ":" ++ password))

/-- `const API_PATH: &str = "v1/api/"`. -/
def API_PATH : String := "v1/api/"

/-- `HttpProvider`: the reqwest client is its default-header map (here:
the optional auth header) and the parsed base URL. -/
structure HttpProvider where
  auth_header : Option String
  base_url : String
deriving DecidableEq

/-- One outbound HTTP GET as it appears on the wire: destination URL,
flattened query parameters, and the default headers attached by the
client (the optional Basic auth value). -/
structure HttpCall where
  url : String
  params : List (String × String)
  auth : Option String
deriving DecidableEq

/-- An HTTP response: a status code and a body delivered as a sequence of
fallible byte chunks. -/
structure HttpResponse where
  status : Nat
  body : ByteStream

/-- The network: what the remote side answers (or a transport error) for
each outbound call. -/
abbrev Network := HttpCall → Except Error HttpResponse

/-- The base URL `try_new` builds:
`{scheme}://{endpoint}/v1/api/` with `https` iff `is_secure`. -/
def baseUrlOf (endpoint : String) (is_secure : Bool) : String :=
  (if is_secure then "https" else "http") ++ "://" ++ endpoint ++ "/" ++ API_PATH

/-- `HttpProvider::try_new` (http.rs lines 69-97): when both username and
password are supplied, compute the Basic auth header once and install it
as a default header — the `expect` on `HeaderValue::from_str` is the only
fatal path, modelled as a fatal construction error; build the base URL
`{scheme}://{endpoint}/v1/api/` with `https` iff `is_secure`. -/
def HttpProvider.try_new (endpoint : String) (is_secure : Bool)
    (username password : Option String) : Except Error HttpProvider :=
  match username, password with
  | some u, some p =>
    if isValidHeaderValue (basicHeaderValue u p) then
      .ok { auth_header := some (basicHeaderValue u p),
            base_url := baseUrlOf endpoint is_secure }
    else
      .error (.fatal "Only non-ascii chars result in an error")
  | _, _ =>
    .ok { auth_header := none, base_url := baseUrlOf endpoint is_secure }

/-- `HttpProvider::url` (http.rs lines 60-62): join a resource path onto
the base URL (the base ends in `/` and every resource path is relative,
so the join is concatenation). -/
def HttpProvider.url (p : HttpProvider) (path : String) : String :=
  p.base_url ++ path

/-- The single outbound GET `HttpProvider::request` builds: the given URL,
the request's flattened query parameters with the `format` token appended
as one extra `format` parameter, and the client's default headers. -/
def mkCall (p : HttpProvider) (url : String) (params : List (String × String))
    (format : Format) : HttpCall :=
  { url := url, params := params ++ [("format", format.token)], auth := p.auth_header }

/-- `HttpProvider::request` (http.rs lines 35-58): issue one GET with the
request flattened to query parameters plus `format`; the response status
is never inspected (`error_for_status` is commented out) and the body's
chunks are returned as the stream in order.  Returns the list of calls
issued alongside the result. -/
def HttpProvider.request (p : HttpProvider) (net : Network) (url : String)
    (params : List (String × String)) (format : Format) :
    List HttpCall × Except Error ByteStream :=
  let call := mkCall p url params format
  match net call with
  | .error e => ([call], .error e)
  | .ok resp => ([call], .ok resp.body)

/-- Modelled from the spec: `blocks::GetBlocksRequest` (request shape not
under `src/`): a chain filter plus an inclusive block range, serialized
with the comma-joined / omit-empty convention. -/
structure GetBlocksRequest where
  chains : Finset ChainId
  from_block : Bound
  to_block : Bound
deriving DecidableEq

/-- The flat query parameters of a `GetBlocksRequest`. -/
def GetBlocksRequest.toQueryParams (r : GetBlocksRequest) : List (String × String) :=
  (if r.chains = ∅ then [] else [("chains", encodeChainSet r.chains)]) ++
    boundParam "from_block" r.from_block ++ boundParam "to_block" r.to_block

/-- `const ETHEREUM_BLOCKS_PATH: &str = "blocks"`. -/
def ETHEREUM_BLOCKS_PATH : String := "blocks"

/-- `HttpProvider::get_blocks_by_format` (http.rs lines 112-120): build
the `blocks` URL and issue the request; the deltas flag is accepted but
unused (`_: bool`). -/
def HttpProvider.get_blocks_by_format (p : HttpProvider) (net : Network)
    (request : GetBlocksRequest) (format : Format) (_deltas : Bool) :
    List HttpCall × Except Error ByteStream :=
  p.request net (p.url ETHEREUM_BLOCKS_PATH) request.toQueryParams format

/-- Modelled from the spec: `btc::GetBtcBlocksRequest` (request shape not
under `src/`): a chain filter plus an inclusive block range; the `chains`
field is the one `http.rs` overwrites. -/
structure GetBtcBlocksRequest where
  chains : Finset ChainId
  from_block : Bound
  to_block : Bound
deriving DecidableEq

/-- Modelled from the spec: `btc::GetBtcTxsRequest` (request shape not
under `src/`), same shape as the BTC blocks request. -/
structure GetBtcTxsRequest where
  chains : Finset ChainId
  from_block : Bound
  to_block : Bound
deriving DecidableEq

/-- The flat query parameters of a `GetBtcBlocksRequest`. -/
def GetBtcBlocksRequest.toQueryParams (r : GetBtcBlocksRequest) : List (String × String) :=
  (if r.chains = ∅ then [] else [("chains", encodeChainSet r.chains)]) ++
    boundParam "from_block" r.from_block ++ boundParam "to_block" r.to_block

/-- The flat query parameters of a `GetBtcTxsRequest`. -/
def GetBtcTxsRequest.toQueryParams (r : GetBtcTxsRequest) : List (String × String) :=
  (if r.chains = ∅ then [] else [("chains", encodeChainSet r.chains)]) ++
    boundParam "from_block" r.from_block ++ boundParam "to_block" r.to_block

/-- `const BTC_BLOCKS_PATH: &str = "blocks"`. -/
def BTC_BLOCKS_PATH : String := "blocks"

/-- `const BTC_TRANSACTIONS_PATH: &str = "transactions"`. -/
def BTC_TRANSACTIONS_PATH : String := "transactions"

/-- `HttpProvider::get_btc_blocks_by_format` (http.rs lines 642-651):
unconditionally overwrite `request.chains` with the singleton `{BTC}`,
then build the `blocks` URL and issue the request; deltas unused. -/
def HttpProvider.get_btc_blocks_by_format (p : HttpProvider) (net : Network)
    (request : GetBtcBlocksRequest) (format : Format) (_deltas : Bool) :
    List HttpCall × Except Error ByteStream :=
  let request := { request with chains := {ChainId.BTC} }
  p.request net (p.url BTC_BLOCKS_PATH) request.toQueryParams format

/-- `HttpProvider::get_btc_txs_by_format` (http.rs lines 653-662):
unconditionally overwrite `request.chains` with the singleton `{BTC}`,
then build the `transactions` URL and issue the request; deltas unused. -/
def HttpProvider.get_btc_txs_by_format (p : HttpProvider) (net : Network)
    (request : GetBtcTxsRequest) (format : Format) (_deltas : Bool) :
    List HttpCall × Except Error ByteStream :=
  let request := { request with chains := {ChainId.BTC} }
  p.request net (p.url BTC_TRANSACTIONS_PATH) request.toQueryParams format

/-- `Client::get_btc_blocks_by_format` (client.rs lines 640-649): forward
request, format and deltas to the inner backend unchanged — no chain
check, no overwrite at this layer. -/
def Client.get_btc_blocks_by_format {ρ : Type}
    (inner : GetBtcBlocksRequest → Format → Bool → ρ)
    (request : GetBtcBlocksRequest) (format : Format) (deltas : Bool) : ρ :=
  inner request format deltas

/-- `Client::get_btc_txs_by_format` (client.rs lines 651-660): forward
request, format and deltas to the inner backend unchanged. -/
def Client.get_btc_txs_by_format {ρ : Type}
    (inner : GetBtcTxsRequest → Format → Bool → ρ)
    (request : GetBtcTxsRequest) (format : Format) (deltas : Bool) : ρ :=
  inner request format deltas

/-! ## Mira requests (`src/rust/src/core/requests/mira.rs`) -/

/-- `fn default_chains() -> HashSet<ChainId> { HashSet::from([ChainId::FUEL]) }`
(mira.rs lines 195-197). -/
def default_chains : Finset ChainId := {ChainId.FUEL}

/-- `GetMiraPoolsRequest` (mira.rs lines 9-55): a chain filter, an
inclusive block range and four `H256` filter sets, each set serialized
comma-joined and skipped when empty. -/
structure GetMiraPoolsRequest where
  chains : Finset ChainId
  from_block : Bound
  to_block : Bound
  pool_address__in : Finset H256
  asset0_address__in : Finset H256
  asset1_address__in : Finset H256
  assets__in : Finset H256
deriving DecidableEq

/-- `GetMiraLiquidityRequest` (mira.rs lines 71-117), same shape. -/
structure GetMiraLiquidityRequest where
  chains : Finset ChainId
  from_block : Bound
  to_block : Bound
  pool_address__in : Finset H256
  asset0_address__in : Finset H256
  asset1_address__in : Finset H256
  assets__in : Finset H256
deriving DecidableEq

/-- `GetMiraSwapsRequest` (mira.rs lines 133-179), same shape. -/
structure GetMiraSwapsRequest where
  chains : Finset ChainId
  from_block : Bound
  to_block : Bound
  pool_address__in : Finset H256
  asset0_address__in : Finset H256
  asset1_address__in : Finset H256
  assets__in : Finset H256
deriving DecidableEq

/-- `impl Default for GetMiraPoolsRequest` (mira.rs lines 57-69). -/
def GetMiraPoolsRequest.default : GetMiraPoolsRequest :=
  { chains := default_chains, from_block := .unbounded, to_block := .unbounded,
    pool_address__in := ∅, asset0_address__in := ∅, asset1_address__in := ∅,
    assets__in := ∅ }

/-- `impl Default for GetMiraLiquidityRequest` (mira.rs lines 119-131). -/
def GetMiraLiquidityRequest.default : GetMiraLiquidityRequest :=
  { chains := default_chains, from_block := .unbounded, to_block := .unbounded,
    pool_address__in := ∅, asset0_address__in := ∅, asset1_address__in := ∅,
    assets__in := ∅ }

/-- `impl Default for GetMiraSwapsRequest` (mira.rs lines 181-193). -/
def GetMiraSwapsRequest.default : GetMiraSwapsRequest :=
  { chains := default_chains, from_block := .unbounded, to_block := .unbounded,
    pool_address__in := ∅, asset0_address__in := ∅, asset1_address__in := ∅,
    assets__in := ∅ }

/-- The serde field view a deserializer sees for a Mira request: each field
optional (`None` = field absent from the input). -/
structure MiraInput where
  chains : Option (Finset ChainId)
  from_block : Option Bound
  to_block : Option Bound
  pool_address__in : Option (Finset H256)
  asset0_address__in : Option (Finset H256)
  asset1_address__in : Option (Finset H256)
  assets__in : Option (Finset H256)

/-- Deserialization of `GetMiraPoolsRequest` per its serde attributes:
`chains` falls back to `default_chains` (`#[serde(default = "default_chains")]`),
every other field to its type's default. -/
def GetMiraPoolsRequest.fromInput (i : MiraInput) : GetMiraPoolsRequest :=
  { chains := i.chains.getD default_chains,
    from_block := i.from_block.getD .unbounded,
    to_block := i.to_block.getD .unbounded,
    pool_address__in := i.pool_address__in.getD ∅,
    asset0_address__in := i.asset0_address__in.getD ∅,
    asset1_address__in := i.asset1_address__in.getD ∅,
    assets__in := i.assets__in.getD ∅ }

/-- Deserialization of `GetMiraLiquidityRequest` per its serde attributes. -/
def GetMiraLiquidityRequest.fromInput (i : MiraInput) : GetMiraLiquidityRequest :=
  { chains := i.chains.getD default_chains,
    from_block := i.from_block.getD .unbounded,
    to_block := i.to_block.getD .unbounded,
    pool_address__in := i.pool_address__in.getD ∅,
    asset0_address__in := i.asset0_address__in.getD ∅,
    asset1_address__in := i.asset1_address__in.getD ∅,
    assets__in := i.assets__in.getD ∅ }

/-- Deserialization of `GetMiraSwapsRequest` per its serde attributes. -/
def GetMiraSwapsRequest.fromInput (i : MiraInput) : GetMiraSwapsRequest :=
  { chains := i.chains.getD default_chains,
    from_block := i.from_block.getD .unbounded,
    to_block := i.to_block.getD .unbounded,
    pool_address__in := i.pool_address__in.getD ∅,
    asset0_address__in := i.asset0_address__in.getD ∅,
    asset1_address__in := i.asset1_address__in.getD ∅,
    assets__in := i.assets__in.getD ∅ }

/-- Outward serialization of `GetMiraPoolsRequest` per its serde
attributes: every set-valued field comma-joined and skipped when empty
(`skip_serializing_if = "HashSet::is_empty"`), bounds per `boundParam`. -/
def GetMiraPoolsRequest.toQueryParams (r : GetMiraPoolsRequest) : List (String × String) :=
  (if r.chains = ∅ then [] else [("chains", encodeChainSet r.chains)]) ++
    boundParam "from_block" r.from_block ++ boundParam "to_block" r.to_block ++
    (if r.pool_address__in = ∅ then []
     else [("pool_address__in", String.mk (encodeH256Set r.pool_address__in))]) ++
    (if r.asset0_address__in = ∅ then []
     else [("asset0_address__in", String.mk (encodeH256Set r.asset0_address__in))]) ++
    (if r.asset1_address__in = ∅ then []
     else [("asset1_address__in", String.mk (encodeH256Set r.asset1_address__in))]) ++
    (if r.assets__in = ∅ then []
     else [("assets__in", String.mk (encodeH256Set r.assets__in))])

/-- Outward serialization of `GetMiraLiquidityRequest` (same serde
attributes as the pools request). -/
def GetMiraLiquidityRequest.toQueryParams (r : GetMiraLiquidityRequest) : List (String × String) :=
  (if r.chains = ∅ then [] else [("chains", encodeChainSet r.chains)]) ++
    boundParam "from_block" r.from_block ++ boundParam "to_block" r.to_block ++
    (if r.pool_address__in = ∅ then []
     else [("pool_address__in", String.mk (encodeH256Set r.pool_address__in))]) ++
    (if r.asset0_address__in = ∅ then []
     else [("asset0_address__in", String.mk (encodeH256Set r.asset0_address__in))]) ++
    (if r.asset1_address__in = ∅ then []
     else [("asset1_address__in", String.mk (encodeH256Set r.asset1_address__in))]) ++
    (if r.assets__in = ∅ then []
     else [("assets__in", String.mk (encodeH256Set r.assets__in))])

/-- Outward serialization of `GetMiraSwapsRequest` (same serde attributes
as the pools request). -/
def GetMiraSwapsRequest.toQueryParams (r : GetMiraSwapsRequest) : List (String × String) :=
  (if r.chains = ∅ then [] else [("chains", encodeChainSet r.chains)]) ++
    boundParam "from_block" r.from_block ++ boundParam "to_block" r.to_block ++
    (if r.pool_address__in = ∅ then []
     else [("pool_address__in", String.mk (encodeH256Set r.pool_address__in))]) ++
    (if r.asset0_address__in = ∅ then []
     else [("asset0_address__in", String.mk (encodeH256Set r.asset0_address__in))]) ++
    (if r.asset1_address__in = ∅ then []
     else [("asset1_address__in", String.mk (encodeH256Set r.asset1_address__in))]) ++
    (if r.assets__in = ∅ then []
     else [("assets__in", String.mk (encodeH256Set r.assets__in))])

/-! ## Status probe (`Client::get_status`, client.rs lines 33-44) -/

/-- Modelled from the spec: the decoded `Status` record (core/types/status,
not under `src/`): one self-contained health record per chunk. -/
structure Status where
  chain : Nat
  latest_block_height : Nat
deriving DecidableEq

/-- `Client::get_status` (client.rs lines 33-44): call the inner
backend's status method with `Format::JsonStream`, pass the stream
through `ResponseError::map_stream` element-wise (`errMap`, whose source
is not under `src/`), then decode each chunk independently
(`serde_json::from_slice::<Status>`, abstracted as `decode`); a chunk's
decode failure becomes that element's error. -/
def Client.get_status
    (inner : Format → Except Error ByteStream)
    (errMap : Except Error Chunk → Except Error Chunk)
    (decode : Chunk → Except Error Status) :
    Except Error (List (Except Error Status)) :=
  match inner Format.JsonStream with
  | .error e => .error e
  | .ok stream => .ok (stream.map (fun r => (errMap r).bind decode))

/-- C1: on the delegating client, the chain check runs before the inner
backend: an empty or out-of-family `chains` set makes the call return the
validation error immediately, with a result that does not depend on the
inner backend at all (so the backend is never invoked); a valid set makes
the call forward request, format and deltas to the inner backend
unchanged.  Stated for the cited Fuel-family and Move-family methods. -/
theorem c1_chain_check_before_backend :
    (∀ (inner : GetFuelBlocksRequest → Format → Bool → Except Error ByteStream)
        (request : GetFuelBlocksRequest) (format : Format) (deltas : Bool),
      Client.get_fuel_blocks_by_format inner request format deltas =
        if request.chains = ∅ then
          .error (.validation "chains must not be empty")
        else if request.chains ⊆ fuelSupportedChains then
          inner request format deltas
        else
          .error (.validation "chain not supported for this resource family")) ∧
    (∀ (inner : GetMoveLogsRequest → Format → Bool → Except Error ByteStream)
        (request : GetMoveLogsRequest) (format : Format) (deltas : Bool),
      Client.get_move_logs_by_format inner request format deltas =
        if request.chains = ∅ then
          .error (.validation "chains must not be empty")
        else if request.chains ⊆ moveSupportedChains then
          inner request format deltas
        else
          .error (.validation "chain not supported for this resource family")) := by
  constructor <;>
    · intro inner request format deltas
      simp only [Client.get_fuel_blocks_by_format, Client.get_move_logs_by_format,
        check_chain]
      split
      · rfl
      · split <;> rfl

/-- `Char.ofNat` round-trips to `toNat` on valid code points. -/
theorem toNat_ofNat_of_valid {n : Nat} (h : n.isValidChar) : (Char.ofNat n).toNat = n := by
  simp [Char.ofNat, Char.toNat, h, Char.ofNatAux]
  rfl

/-- Every base64 alphabet code lies in the printable ASCII band. -/
theorem b64Code_bounds (n : Nat) : 43 ≤ b64Code n ∧ b64Code n ≤ 122 := by
  unfold b64Code
  split_ifs <;> omega

/-- Every code emitted by the base64 encoder (alphabet or `=` padding)
lies in the printable ASCII band 32..126. -/
theorem base64Codes_printable (bs : List Nat) :
    ∀ x ∈ base64Codes bs, 32 ≤ x ∧ x ≤ 126 := by
  induction bs using base64Codes.induct with
  | case1 b1 b2 b3 rest ih =>
    intro x hx
    simp only [base64Codes, List.mem_cons] at hx
    rcases hx with rfl | rfl | rfl | rfl | hx
    · have := b64Code_bounds (b1 / 4); omega
    · have := b64Code_bounds (b1 % 4 * 16 + b2 / 16); omega
    · have := b64Code_bounds (b2 % 16 * 4 + b3 / 64); omega
    · have := b64Code_bounds (b3 % 64); omega
    · exact ih x hx
  | case2 b1 b2 =>
    intro x hx
    simp only [base64Codes, List.mem_cons, List.not_mem_nil, or_false] at hx
    rcases hx with rfl | rfl | rfl | rfl
    · have := b64Code_bounds (b1 / 4); omega
    · have := b64Code_bounds (b1 % 4 * 16 + b2 / 16); omega
    · have := b64Code_bounds (b2 % 16 * 4); omega
    · omega
  | case3 b1 =>
    intro x hx
    simp only [base64Codes, List.mem_cons, List.not_mem_nil, or_false] at hx
    rcases hx with rfl | rfl | rfl | rfl
    · have := b64Code_bounds (b1 / 4); omega
    · have := b64Code_bounds (b1 % 4 * 16); omega
    · omega
    · omega
  | case4 =>
    intro x hx
    simp [base64Codes] at hx

/-- The Basic auth header value computed at construction is always a valid
header value (all chars printable ASCII), for any credentials: the fatal
branch of `try_new` is unreachable. -/
theorem basicHeaderValue_valid (u p : String) :
    isValidHeaderValue (basicHeaderValue u p) := by
  intro c hc
  simp only [basicHeaderValue, String.data_append, base64Encode,
    List.mem_append] at hc
  rcases hc with hc | hc
  · fin_cases hc <;> decide
  · rcases List.mem_map.mp hc with ⟨x, hx, rfl⟩
    have hb := base64Codes_printable _ _ hx
    have hv : x.isValidChar := Or.inl (by omega)
    rw [toNat_ofNat_of_valid hv]
    omega

/-- C5: `try_new` never fails: for any endpoint, toggle and credentials it
returns a provider whose default auth header is `some ("Basic " ++ base64
of "username:password")` exactly when both username and password are
supplied and `none` otherwise, and every outbound call built from that
provider carries that header; the only fatal construction path (an
invalid header value) is unreachable because the computed value is always
valid. -/
theorem c5_basic_auth_at_construction :
    ∀ (endpoint : String) (is_secure : Bool) (username password : Option String),
      (∀ u p, isValidHeaderValue (basicHeaderValue u p)) ∧
      ∃ prov : HttpProvider,
        HttpProvider.try_new endpoint is_secure username password = .ok prov ∧
        prov.auth_header =
          (match username, password with
           | some u, some p => some ("Basic " ++ base64Encode (strBytes (u ++ ":" ++ p)))
           | _, _ => none) ∧
        (∀ (url : String) (params : List (String × String)) (format : Format),
          (mkCall prov url params format).auth = prov.auth_header) := by
  intro endpoint is_secure username password
  refine ⟨basicHeaderValue_valid, ?_⟩
  match username, password with
  | some u, some p =>
    refine ⟨{ auth_header := some (basicHeaderValue u p),
              base_url := baseUrlOf endpoint is_secure }, ?_, rfl, fun _ _ _ => rfl⟩
    simp [HttpProvider.try_new, if_pos (basicHeaderValue_valid u p)]
  | some u, none =>
    exact ⟨{ auth_header := none, base_url := baseUrlOf endpoint is_secure },
      rfl, rfl, fun _ _ _ => rfl⟩
  | none, some p =>
    exact ⟨{ auth_header := none, base_url := baseUrlOf endpoint is_secure },
      rfl, rfl, fun _ _ _ => rfl⟩
  | none, none =>
    exact ⟨{ auth_header := none, base_url := baseUrlOf endpoint is_secure },
      rfl, rfl, fun _ _ _ => rfl⟩

/-- C3: a provider built by `try_new` sends each query as exactly one GET
to `{scheme}://{endpoint}/v1/api/{path}` with `https` iff the secure
toggle, the request's fields flattened to query parameters, the format
token appended as one extra `format` parameter, and the returned stream
equal to the response body's chunks in order (stated for the cited
`get_blocks_by_format` method). -/
theorem c3_single_get_query_and_stream :
    ∀ (endpoint : String) (is_secure : Bool) (username password : Option String)
      (prov : HttpProvider),
      HttpProvider.try_new endpoint is_secure username password = .ok prov →
      prov.url ETHEREUM_BLOCKS_PATH =
        (if is_secure then "https" else "http") ++ "://" ++ endpoint ++ "/v1/api/blocks" ∧
      ∀ (net : Network) (request : GetBlocksRequest) (format : Format) (deltas : Bool),
        HttpProvider.get_blocks_by_format prov net request format deltas =
          ([mkCall prov (prov.url ETHEREUM_BLOCKS_PATH) request.toQueryParams format],
           (net (mkCall prov (prov.url ETHEREUM_BLOCKS_PATH)
              request.toQueryParams format)).map HttpResponse.body) ∧
        (mkCall prov (prov.url ETHEREUM_BLOCKS_PATH) request.toQueryParams format).params =
          request.toQueryParams ++ [("format", format.token)] := by
  intro endpoint is_secure username password prov h
  have hbase : prov.base_url = baseUrlOf endpoint is_secure := by
    rcases username with _ | u <;> rcases password with _ | pw <;>
      simp only [HttpProvider.try_new] at h
    · exact (congrArg HttpProvider.base_url (Except.ok.inj h)).symm
    · exact (congrArg HttpProvider.base_url (Except.ok.inj h)).symm
    · exact (congrArg HttpProvider.base_url (Except.ok.inj h)).symm
    · rw [if_pos (basicHeaderValue_valid u pw)] at h
      exact (congrArg HttpProvider.base_url (Except.ok.inj h)).symm
  constructor
  · show prov.base_url ++ ETHEREUM_BLOCKS_PATH = _
    rw [hbase]
    simp only [baseUrlOf, API_PATH, ETHEREUM_BLOCKS_PATH, String.append_assoc]
    rfl
  · intro net request format deltas
    refine ⟨?_, rfl⟩
    simp only [HttpProvider.get_blocks_by_format, HttpProvider.request]
    cases net (mkCall prov (prov.url ETHEREUM_BLOCKS_PATH)
        request.toQueryParams format) <;> rfl

/-- C3 witness: a secure provider for `example.com` issues one GET to
`https://example.com/v1/api/blocks` with `chains=ETH&from_block=100&
to_block=200&format=json`, and a three-chunk mock body streams back as
exactly those three chunks in order. -/
theorem c3_single_get_query_and_stream_witness :
    HttpProvider.get_blocks_by_format
        { auth_header := none, base_url := baseUrlOf "example.com" true }
        (fun _ => .ok { status := 200, body := [.ok [1], .ok [2], .ok [3]] })
        { chains := {ChainId.ETH}, from_block := .exact 100, to_block := .exact 200 }
        Format.Json false =
      ([{ url := "https://example.com/v1/api/blocks",
          params := [("chains", "ETH"), ("from_block", "100"), ("to_block", "200"),
                     ("format", "json")],
          auth := none }],
       .ok [.ok [1], .ok [2], .ok [3]]) := by
  have h := (c3_single_get_query_and_stream "example.com" true none none
    { auth_header := none, base_url := baseUrlOf "example.com" true } rfl).2
    (fun _ => .ok { status := 200, body := [.ok [1], .ok [2], .ok [3]] })
    { chains := {ChainId.ETH}, from_block := .exact 100, to_block := .exact 200 }
    Format.Json false
  rw [h.1]
  rfl

/-- C4: `HttpProvider::request` never inspects the response status: two
networks whose answers agree on bodies (but may disagree on status codes)
give identical results, and a non-success response such as a 500 streams
its body chunks as ordinary data without failing the call. -/
theorem c4_status_never_inspected :
    (∀ (p : HttpProvider) (url : String) (params : List (String × String))
        (format : Format) (net net' : Network),
      (∀ c, (net c).map HttpResponse.body = (net' c).map HttpResponse.body) →
      HttpProvider.request p net url params format =
        HttpProvider.request p net' url params format) ∧
    (∀ (p : HttpProvider) (url : String) (params : List (String × String))
        (format : Format) (status : Nat) (body : ByteStream),
      (HttpProvider.request p (fun _ => .ok { status := status, body := body })
          url params format).2 = .ok body) := by
  constructor
  · intro p url params format net net' h
    have hc := h (mkCall p url params format)
    simp only [HttpProvider.request]
    cases hnet : net (mkCall p url params format) <;>
      cases hnet' : net' (mkCall p url params format) <;>
      rw [hnet, hnet'] at hc <;> simp_all [Except.map]
  · intro p url params format status body
    rfl

/-- C4 witness: a 500 response with two chunks and a 200 response with the
same two chunks produce the very same call result, and the 500 body is
streamed as data. -/
theorem c4_status_never_inspected_witness :
    HttpProvider.request { auth_header := none, base_url := "http://h/v1/api/" }
        (fun _ => .ok { status := 500, body := [.ok [7], .ok [8]] }) "u" [] Format.Json =
      HttpProvider.request { auth_header := none, base_url := "http://h/v1/api/" }
        (fun _ => .ok { status := 200, body := [.ok [7], .ok [8]] }) "u" [] Format.Json ∧
    (HttpProvider.request { auth_header := none, base_url := "http://h/v1/api/" }
        (fun _ => .ok { status := 404, body := [.ok [9]] }) "u" [] Format.Json).2 =
      .ok [.ok [9]] :=
  ⟨c4_status_never_inspected.1 _ "u" [] Format.Json _ _ (fun _ => rfl),
   c4_status_never_inspected.2 _ "u" [] Format.Json 404 [.ok [9]]⟩

/-- C2: for both UTXO-chain (BTC) query methods of the HTTP transport, the
request put on the wire carries `chains = {BTC}` regardless of the
caller-supplied set: the method equals one GET whose query parameters are
those of the request with `chains` overwritten to the singleton before
forwarding, its result is the network's answer (never a validation
failure), and the serialized `chains` parameter is exactly `"BTC"`; the
delegating client's BTC methods forward the request unchanged. -/
theorem c2_btc_chains_overwritten :
    (∀ (p : HttpProvider) (net : Network) (request : GetBtcBlocksRequest)
        (format : Format) (deltas : Bool),
      HttpProvider.get_btc_blocks_by_format p net request format deltas =
        ([mkCall p (p.url BTC_BLOCKS_PATH)
            (GetBtcBlocksRequest.toQueryParams { request with chains := {ChainId.BTC} }) format],
         (net (mkCall p (p.url BTC_BLOCKS_PATH)
            (GetBtcBlocksRequest.toQueryParams { request with chains := {ChainId.BTC} })
            format)).map HttpResponse.body) ∧
      List.lookup "chains"
          (GetBtcBlocksRequest.toQueryParams { request with chains := {ChainId.BTC} }) =
        some "BTC") ∧
    (∀ (p : HttpProvider) (net : Network) (request : GetBtcTxsRequest)
        (format : Format) (deltas : Bool),
      HttpProvider.get_btc_txs_by_format p net request format deltas =
        ([mkCall p (p.url BTC_TRANSACTIONS_PATH)
            (GetBtcTxsRequest.toQueryParams { request with chains := {ChainId.BTC} }) format],
         (net (mkCall p (p.url BTC_TRANSACTIONS_PATH)
            (GetBtcTxsRequest.toQueryParams { request with chains := {ChainId.BTC} })
            format)).map HttpResponse.body) ∧
      List.lookup "chains"
          (GetBtcTxsRequest.toQueryParams { request with chains := {ChainId.BTC} }) =
        some "BTC") ∧
    (∀ (inner : GetBtcBlocksRequest → Format → Bool → Except Error ByteStream)
        (request : GetBtcBlocksRequest) (format : Format) (deltas : Bool),
      Client.get_btc_blocks_by_format inner request format deltas =
        inner request format deltas) ∧
    (∀ (inner : GetBtcTxsRequest → Format → Bool → Except Error ByteStream)
        (request : GetBtcTxsRequest) (format : Format) (deltas : Bool),
      Client.get_btc_txs_by_format inner request format deltas =
        inner request format deltas) := by
  have hne : ({ChainId.BTC} : Finset ChainId) ≠ ∅ := by decide
  refine ⟨fun p net request format deltas => ⟨?_, ?_⟩,
          fun p net request format deltas => ⟨?_, ?_⟩,
          fun _ _ _ _ => rfl, fun _ _ _ _ => rfl⟩
  · simp only [HttpProvider.get_btc_blocks_by_format, HttpProvider.request]
    cases net (mkCall p (p.url BTC_BLOCKS_PATH)
        (GetBtcBlocksRequest.toQueryParams { request with chains := {ChainId.BTC} })
        format) <;> rfl
  · have hb : encodeChainSet {ChainId.BTC} = "BTC" := by decide
    simp only [GetBtcBlocksRequest.toQueryParams, if_neg hne, hb, List.cons_append]
    simp [List.lookup]
  · simp only [HttpProvider.get_btc_txs_by_format, HttpProvider.request]
    cases net (mkCall p (p.url BTC_TRANSACTIONS_PATH)
        (GetBtcTxsRequest.toQueryParams { request with chains := {ChainId.BTC} })
        format) <;> rfl
  · have hb : encodeChainSet {ChainId.BTC} = "BTC" := by decide
    simp only [GetBtcTxsRequest.toQueryParams, if_neg hne, hb, List.cons_append]
    simp [List.lookup]

/-- C10: the HTTP transport's query methods behave identically for
`deltas = true` and `deltas = false`: outbound call and returned stream
are the same (the flag is accepted and ignored). -/
theorem c10_deltas_ignored :
    (∀ (p : HttpProvider) (net : Network) (request : GetBlocksRequest)
        (format : Format) (d1 d2 : Bool),
      HttpProvider.get_blocks_by_format p net request format d1 =
        HttpProvider.get_blocks_by_format p net request format d2) ∧
    (∀ (p : HttpProvider) (net : Network) (request : GetBtcBlocksRequest)
        (format : Format) (d1 d2 : Bool),
      HttpProvider.get_btc_blocks_by_format p net request format d1 =
        HttpProvider.get_btc_blocks_by_format p net request format d2) ∧
    (∀ (p : HttpProvider) (net : Network) (request : GetBtcTxsRequest)
        (format : Format) (d1 d2 : Bool),
      HttpProvider.get_btc_txs_by_format p net request format d1 =
        HttpProvider.get_btc_txs_by_format p net request format d2) :=
  ⟨fun _ _ _ _ _ _ => rfl, fun _ _ _ _ _ _ => rfl, fun _ _ _ _ _ _ => rfl⟩

/-- `splitComma` never returns the empty list of tokens. -/
theorem splitComma_ne_nil (cs : List Char) : splitComma cs ≠ [] := by
  cases cs with
  | nil => simp [splitComma]
  | cons c cs =>
    simp only [splitComma]
    cases splitComma cs with
    | nil => simp
    | cons t ts => by_cases hc : c = ',' <;> simp [hc]

/-- Splitting a comma-free token, a comma, then a remainder peels the
token off the front. -/
theorem splitComma_token_comma (t rest : List Char) (h : ',' ∉ t) :
    splitComma (t ++ ',' :: rest) = t :: splitComma rest := by
  induction t with
  | nil =>
    simp only [List.nil_append, splitComma]
    cases hs : splitComma rest with
    | nil => exact absurd hs (splitComma_ne_nil rest)
    | cons t' ts => simp
  | cons c t ih =>
    have hc : c ≠ ',' := fun hc => h (by simp [hc])
    have ht : ',' ∉ t := fun hm => h (List.mem_cons_of_mem _ hm)
    rw [List.cons_append]
    simp only [splitComma]
    rw [ih ht]
    simp [hc]

/-- A comma-free character list splits to itself as the only token. -/
theorem splitComma_no_comma (t : List Char) (h : ',' ∉ t) : splitComma t = [t] := by
  induction t with
  | nil => rfl
  | cons c t ih =>
    have hc : c ≠ ',' := fun hc => h (by simp [hc])
    have ht : ',' ∉ t := fun hm => h (List.mem_cons_of_mem _ hm)
    simp [splitComma, ih ht, hc]

/-- `splitComma` inverts `joinComma` on any non-empty list of comma-free
tokens. -/
theorem splitComma_joinComma (ts : List (List Char)) (h1 : ts ≠ [])
    (h2 : ∀ t ∈ ts, ',' ∉ t) : splitComma (joinComma ts) = ts := by
  induction ts with
  | nil => exact absurd rfl h1
  | cons t ts ih =>
    cases ts with
    | nil => exact splitComma_no_comma t (h2 t (by simp))
    | cons t2 ts2 =>
      have hj : joinComma (t :: t2 :: ts2) = t ++ ',' :: joinComma (t2 :: ts2) := by
        simp [joinComma]
      rw [hj, splitComma_token_comma t _ (h2 t (by simp)),
        ih (by simp) (fun u hu => h2 u (List.mem_cons_of_mem _ hu))]

/-- Hex decoding inverts hex encoding digit-wise below the base. -/
theorem hexVal_hexChar : ∀ d, d < 16 → hexVal (hexChar d) = d := by decide

/-- No hex digit character is a comma. -/
theorem hexChar_ne_comma (d : Nat) : hexChar d ≠ ',' := by
  unfold hexChar
  split <;> decide

/-- An `H256` token is never empty. -/
theorem h256Token_ne_nil (n : H256) : h256Token n ≠ [] := by
  unfold h256Token
  split
  · simp
  · next h =>
    simp only [ne_eq, List.reverse_eq_nil_iff, List.map_eq_nil_iff]
    exact fun hd => h (Nat.digits_eq_nil_iff_eq_zero.mp hd)

/-- An `H256` token never contains the separator comma. -/
theorem comma_not_mem_h256Token (n : H256) : ',' ∉ h256Token n := by
  unfold h256Token
  split
  · decide
  · intro hm
    rw [List.mem_reverse] at hm
    rcases List.mem_map.mp hm with ⟨d, _, hd⟩
    exact hexChar_ne_comma d hd

/-- Parsing an `H256` token recovers the value. -/
theorem parseH256Token_h256Token (n : H256) : parseH256Token (h256Token n) = n := by
  unfold h256Token parseH256Token
  split
  · next h => subst h; decide
  · rw [List.map_reverse, List.reverse_reverse, List.map_map]
    have hm : (Nat.digits 16 n).map (hexVal ∘ hexChar) = (Nat.digits 16 n).map id := by
      apply List.map_congr_left
      intro d hd
      simpa using hexVal_hexChar d (Nat.digits_lt_base (by norm_num) hd)
    rw [hm, List.map_id, Nat.ofDigits_digits]

/-- C9: decoding the comma-joined serialization is a left inverse of
encoding — whatever order the elements were joined in, every token parses
back and the whole list is recovered exactly, so the decoded set equals
the original set; in particular `decodeH256Set` inverts `encodeH256Set`
on every non-empty filter set. -/
theorem c9_comma_join_roundtrip :
    (∀ l : List H256, l ≠ [] →
      (splitComma (joinComma (l.map h256Token))).map parseH256Token = l) ∧
    (∀ s : Finset H256, s.Nonempty → decodeH256Set (encodeH256Set s) = s) := by
  have key : ∀ l : List H256, l ≠ [] →
      (splitComma (joinComma (l.map h256Token))).map parseH256Token = l := by
    intro l hl
    rw [splitComma_joinComma (l.map h256Token) (by simpa using hl)
      (by
        intro t ht
        rcases List.mem_map.mp ht with ⟨n, _, rfl⟩
        exact comma_not_mem_h256Token n)]
    rw [List.map_map]
    have hm2 : l.map (parseH256Token ∘ h256Token) = l.map id :=
      List.map_congr_left (fun n _ => by simpa using parseH256Token_h256Token n)
    rw [hm2, List.map_id]
  refine ⟨key, fun s hs => ?_⟩
  unfold decodeH256Set encodeH256Set
  rw [key (s.sort (· ≤ ·)) (by
    obtain ⟨a, ha⟩ := hs
    intro hnil
    have hmem : a ∈ s.sort (· ≤ ·) := (Finset.mem_sort _).mpr ha
    simp [hnil] at hmem)]
  exact Finset.sort_toFinset _ s

/-- C9 witness: the two-element list `[5, 0]` and the singleton set `{3}`
round-trip through the comma-joined convention. -/
theorem c9_comma_join_roundtrip_witness :
    (splitComma (joinComma ([5, 0].map h256Token))).map parseH256Token = [5, 0] ∧
    decodeH256Set (encodeH256Set {3}) = {3} :=
  ⟨c9_comma_join_roundtrip.1 [5, 0] (by decide),
   c9_comma_join_roundtrip.2 {3} (Finset.singleton_nonempty 3)⟩

/-- Membership of a keyed pair in the parameters contributed by one block
bound. -/
theorem mem_boundParam {k kb v : String} {b : Bound} :
    (k, v) ∈ boundParam kb b ↔ k = kb ∧ ∃ n, b = .exact n ∧ v = Nat.repr n := by
  cases b <;> simp [boundParam, Prod.mk.injEq, eq_comm]

/-- C7: in the outward serialization of all three Mira requests, each
set-valued field (`chains`, `pool_address__in`, `asset0_address__in`,
`asset1_address__in`, `assets__in`) contributes a query parameter exactly
when the set is non-empty, and then its value is the deterministic
comma-joined token list; an empty set contributes nothing. -/
theorem c7_mira_empty_sets_omitted :
    (∀ (r : GetMiraPoolsRequest) (v : String),
      (("chains", v) ∈ r.toQueryParams ↔
        r.chains ≠ ∅ ∧ v = encodeChainSet r.chains) ∧
      (("pool_address__in", v) ∈ r.toQueryParams ↔
        r.pool_address__in ≠ ∅ ∧ v = String.mk (encodeH256Set r.pool_address__in)) ∧
      (("asset0_address__in", v) ∈ r.toQueryParams ↔
        r.asset0_address__in ≠ ∅ ∧ v = String.mk (encodeH256Set r.asset0_address__in)) ∧
      (("asset1_address__in", v) ∈ r.toQueryParams ↔
        r.asset1_address__in ≠ ∅ ∧ v = String.mk (encodeH256Set r.asset1_address__in)) ∧
      (("assets__in", v) ∈ r.toQueryParams ↔
        r.assets__in ≠ ∅ ∧ v = String.mk (encodeH256Set r.assets__in))) ∧
    (∀ (r : GetMiraLiquidityRequest) (v : String),
      (("chains", v) ∈ r.toQueryParams ↔
        r.chains ≠ ∅ ∧ v = encodeChainSet r.chains) ∧
      (("pool_address__in", v) ∈ r.toQueryParams ↔
        r.pool_address__in ≠ ∅ ∧ v = String.mk (encodeH256Set r.pool_address__in)) ∧
      (("asset0_address__in", v) ∈ r.toQueryParams ↔
        r.asset0_address__in ≠ ∅ ∧ v = String.mk (encodeH256Set r.asset0_address__in)) ∧
      (("asset1_address__in", v) ∈ r.toQueryParams ↔
        r.asset1_address__in ≠ ∅ ∧ v = String.mk (encodeH256Set r.asset1_address__in)) ∧
      (("assets__in", v) ∈ r.toQueryParams ↔
        r.assets__in ≠ ∅ ∧ v = String.mk (encodeH256Set r.assets__in))) ∧
    (∀ (r : GetMiraSwapsRequest) (v : String),
      (("chains", v) ∈ r.toQueryParams ↔
        r.chains ≠ ∅ ∧ v = encodeChainSet r.chains) ∧
      (("pool_address__in", v) ∈ r.toQueryParams ↔
        r.pool_address__in ≠ ∅ ∧ v = String.mk (encodeH256Set r.pool_address__in)) ∧
      (("asset0_address__in", v) ∈ r.toQueryParams ↔
        r.asset0_address__in ≠ ∅ ∧ v = String.mk (encodeH256Set r.asset0_address__in)) ∧
      (("asset1_address__in", v) ∈ r.toQueryParams ↔
        r.asset1_address__in ≠ ∅ ∧ v = String.mk (encodeH256Set r.asset1_address__in)) ∧
      (("assets__in", v) ∈ r.toQueryParams ↔
        r.assets__in ≠ ∅ ∧ v = String.mk (encodeH256Set r.assets__in))) := by
  refine ⟨?_, ?_, ?_⟩ <;>
    · rintro ⟨chains, fb, tb, pa, a0, a1, asn⟩ v
      refine ⟨?_, ?_, ?_, ?_, ?_⟩ <;>
        simp [GetMiraPoolsRequest.toQueryParams, GetMiraLiquidityRequest.toQueryParams,
          GetMiraSwapsRequest.toQueryParams, List.mem_append, List.mem_ite_nil_left,
          mem_boundParam, Prod.mk.injEq]

/-- C8: the canonical Mira default chain set is the Fuel singleton, both
through `Default` and through deserialization of an input whose `chains`
field is absent, for all three Mira request types; the singleton is
non-empty. -/
theorem c8_default_chains_is_fuel_singleton :
    GetMiraPoolsRequest.default.chains = {ChainId.FUEL} ∧
    GetMiraLiquidityRequest.default.chains = {ChainId.FUEL} ∧
    GetMiraSwapsRequest.default.chains = {ChainId.FUEL} ∧
    default_chains = {ChainId.FUEL} ∧
    ({ChainId.FUEL} : Finset ChainId) ≠ ∅ ∧
    (∀ (fb tb : Option Bound) (pa a0 a1 asn : Option (Finset H256)),
      (GetMiraPoolsRequest.fromInput ⟨none, fb, tb, pa, a0, a1, asn⟩).chains =
        {ChainId.FUEL} ∧
      (GetMiraLiquidityRequest.fromInput ⟨none, fb, tb, pa, a0, a1, asn⟩).chains =
        {ChainId.FUEL} ∧
      (GetMiraSwapsRequest.fromInput ⟨none, fb, tb, pa, a0, a1, asn⟩).chains =
        {ChainId.FUEL}) :=
  ⟨rfl, rfl, rfl, rfl, by decide, fun _ _ _ _ _ _ => ⟨rfl, rfl, rfl⟩⟩

/-- C6: `get_status` consults the backend only at `Format::JsonStream` and
maps the stream chunk-wise: its result is exactly the element-wise decode
of the backend's stream (so two backends agreeing at `JsonStream` are
indistinguishable), and each output element is determined by the input
element at the same position alone, so one malformed chunk yields an
error for that element only. -/
theorem c6_status_jsonstream_per_chunk :
    ∀ (inner inner' : Format → Except Error ByteStream)
      (errMap : Except Error Chunk → Except Error Chunk)
      (decode : Chunk → Except Error Status) (s : ByteStream),
      inner Format.JsonStream = .ok s →
      (Client.get_status inner errMap decode =
        .ok (s.map (fun r => (errMap r).bind decode))) ∧
      (inner' Format.JsonStream = inner Format.JsonStream →
        Client.get_status inner' errMap decode = Client.get_status inner errMap decode) ∧
      (∀ i : Nat,
        (s.map (fun r => (errMap r).bind decode))[i]? =
          Option.map (fun r => (errMap r).bind decode) s[i]?) := by
  intro inner inner' errMap decode s h
  refine ⟨?_, ?_, fun i => List.getElem?_map _ s i⟩
  · simp [Client.get_status, h]
  · intro h'
    simp [Client.get_status, h', h]

/-- C6 witness: a two-chunk stream where only the first chunk decodes
yields the decoded first record and a decode error for the second element
only. -/
theorem c6_status_jsonstream_per_chunk_witness :
    Client.get_status (fun _ => .ok [.ok [1], .ok [2]]) id
        (fun c => if c = [1] then .ok { chain := 1, latest_block_height := 10 }
                  else .error (.decode "bad")) =
      .ok [.ok { chain := 1, latest_block_height := 10 }, .error (.decode "bad")] := by
  rw [(c6_status_jsonstream_per_chunk (fun _ => .ok [.ok [1], .ok [2]])
      (fun _ => .ok [.ok [1], .ok [2]]) id
      (fun c => if c = [1] then .ok { chain := 1, latest_block_height := 10 }
                else .error (.decode "bad")) [.ok [1], .ok [2]] rfl).1]
  rfl

end Pangea
